import Mathlib

/-!
Verification of the `ioBroker.unfolded` adapter (WebSocket variant in
`main.js`, plus the one-shot REST sibling) against its natural-language
specification.

The repository is a thin ioBroker adapter.  We embed the relevant
JavaScript functions shallowly:

* the host platform's object/state store becomes an explicit `Host`
  record of (path-indexed) partial maps;
* the adapter's connection lifecycle (socket, reconnect timer) becomes a
  `Conn` record with an explicit `step` function over the events the
  runtime can deliver (`open`, `close`, timer fire, `unload`);
* `JSON.parse` failure becomes an `Option` (fallible code returns
  `Option`), the `ws.send`/`axios.post` outcomes become parameters;
* `setTimeout` callbacks become explicit lists of scheduled writes with
  their delays.

All definitions are translated from the source files; the single
exception is `specLocalKey`, which deliberately follows the spec's words
("final `.`-delimited segment of `entity_id`") so that it can be
compared with the code's key derivation.
-/

/-! ## JavaScript string splitting

`String.split(".")` in JavaScript.  We implement it structurally over
the character list so that it reduces in the kernel.  An out-of-range
index access (`parts[i]` with `i` outside the array) yields `undefined`
in JavaScript, which stringifies to `"undefined"` inside a template
literal; `jsIdx` reproduces exactly that. -/

def splitDotsAux : List Char → List (List Char)
  | [] => [[]]
  | c :: cs =>
    let r := splitDotsAux cs
    if c = '.' then [] :: r
    else
      match r with
      | [] => [[c]]
      | w :: ws => (c :: w) :: ws

def jsSplitDot (s : String) : List String :=
  (splitDotsAux s.data).map String.mk

def jsIdx (l : List String) (i : Int) : String :=
  if 0 ≤ i then l.getD i.toNat "undefined" else "undefined"

/-- Key derivation used by both `createOrUpdateActivity` (main.js:168)
and the `entity_change` branch of `handleMessage` (main.js:154):
`act.entity_id.split(".")[2]`, i.e. the segment at index 2. -/
def entityKey (eid : String) : String :=
  (jsSplitDot eid).getD 2 "undefined"

/-- Modelled from the spec: "local key is the final path segment of
`entity_id` after splitting on `.`".  This is the spec's version of the
key derivation, kept separate so it can be compared with `entityKey`,
the code's version. -/
def specLocalKey (eid : String) : String :=
  (jsSplitDot eid).getLastD ""

/-! ## Basic host-platform values -/

inductive JSVal
  | jbool (b : Bool)
  | jstr (s : String)
  deriving DecidableEq, Repr

/-- A stored ioBroker state: value plus acknowledgment flag. -/
structure IoState where
  val : JSVal
  ack : Bool
  deriving DecidableEq, Repr

inductive LogLevel
  | silly
  | debug
  | info
  | warn
  | error
  deriving DecidableEq, Repr

structure LogEntry where
  level : LogLevel
  text : String
  deriving DecidableEq, Repr

/-- An ioBroker object definition, covering the fields the adapter
writes: object type (`channel`/`state`), `common.name`, and for state
objects `common.type`, `common.role`, `common.read`, `common.write`.
The REST variant stores the original entity id under `native`. -/
structure ObjDef where
  otype : String
  name : String
  vtype : Option String := none
  role : Option String := none
  read : Option Bool := none
  write : Option Bool := none
  nativeOrigId : Option String := none
  deriving DecidableEq, Repr

def upd {α : Type} (f : String → Option α) (k : String) (v : α) :
    String → Option α :=
  fun x => if x = k then some v else f x

/-- The host platform's object tree and state store, as seen by one
adapter instance: objects, states, and subscribed state patterns. -/
@[ext]
structure Host where
  objects : String → Option ObjDef
  states : String → Option IoState
  subs : String → Bool

/-- `extendObject`: create the object if absent, else merge the given
definition over it.  The adapter always passes the complete definition,
so the merge coincides with an overwrite. -/
def extendObject (h : Host) (p : String) (d : ObjDef) : Host :=
  { h with objects := upd h.objects p d }

/-- `setObjectNotExistsAsync`: create the object only if absent. -/
def setObjectNotExists (h : Host) (p : String) (d : ObjDef) : Host :=
  match h.objects p with
  | some _ => h
  | none => { h with objects := upd h.objects p d }

/-- `setState`/`setStateAsync` on a path. -/
def setSt (h : Host) (p : String) (v : IoState) : Host :=
  { h with states := upd h.states p v }

/-- `subscribeStates` on a pattern. -/
def subSt (h : Host) (p : String) : Host :=
  { h with subs := fun x => if x = p then true else h.subs x }

def host0 : Host :=
  { objects := fun _ => none, states := fun _ => none, subs := fun _ => false }

/-! ## Entities (hub records) -/

/-- The localized name mapping of an entity (`act.name`). -/
structure EntityName where
  de_DE : Option String := none
  en_US : Option String := none
  deriving DecidableEq, Repr

/-- A hub entity record as used by `createOrUpdateActivity`:
`entity_id`, the name mapping, and `attributes.state`. -/
structure Entity where
  entity_id : String
  name : EntityName := {}
  attributes_state : String
  deriving DecidableEq, Repr

/-- JavaScript `a || b` on a possibly absent string: `undefined` and the
empty string are falsy. -/
def jsOrS : Option String → String → String
  | some s, b => if s = "" then b else s
  | none, b => b

def channelDef (nm : String) : ObjDef := { otype := "channel", name := nm }

def isActiveDef : ObjDef :=
  { otype := "state", name := "Activity aktiv?", vtype := some "boolean",
    role := some "indicator", read := some true, write := some false }

def startDef : ObjDef :=
  { otype := "state", name := "Starte diese Aktivität",
    vtype := some "boolean", role := some "button", read := some false,
    write := some true }

/-- `createOrUpdateActivity` (main.js:167-202): derives the local key and
display name, extends the channel object, the `is_active` state object,
writes the `is_active` value (`attributes.state != "OFF"`, acknowledged),
subscribes the `start` state, and extends the `start` state object. -/
def createOrUpdateActivity (h : Host) (act : Entity) : Host :=
  let id := entityKey act.entity_id
  let nm := jsOrS act.name.de_DE (jsOrS act.name.en_US id)
  let h1 := extendObject h ("activities." ++ id) (channelDef nm)
  let h2 := extendObject h1 ("activities." ++ id ++ ".is_active") isActiveDef
  let h3 := setSt h2 ("activities." ++ id ++ ".is_active")
    ⟨.jbool (act.attributes_state != "OFF"), true⟩
  let h4 := subSt h3 ("activities." ++ id ++ ".start")
  extendObject h4 ("activities." ++ id ++ ".start") startDef

/-! ## Inbound messages (`handleMessage`, main.js:136-164) -/

/-- `new_state.attributes` of an incremental event. -/
structure NewState where
  attributes_state : String
  deriving DecidableEq, Repr

/-- The `msg_data` of an inbound envelope, with the fields the handler
inspects.  `entity_id` is read unguarded by the event branch, so it is a
plain field here. -/
structure MsgData where
  entities : Option (List Entity) := none
  entity_type : Option String := none
  event_type : Option String := none
  entity_id : String := ""
  new_state : Option NewState := none
  deriving Repr

/-- An inbound envelope as inspected by `handleMessage`. -/
structure Msg where
  kind : String
  code : Option Nat := none
  msg : String
  cat : Option String := none
  msg_data : Option MsgData := none
  deriving Repr

/-- `handleMessage` (main.js:136-164): on a successful `entities`
response, reconcile every record; on a matching `entity_change` event,
update `is_active` when the new state value is `ON` or `OFF`. -/
def handleMessage (h : Host) (m : Msg) : Host × List LogEntry :=
  let logs0 : List LogEntry :=
    [⟨.silly, "Empfangene WS-Nachricht"⟩,
     ⟨.debug, "Empfangene WS-Nachricht: " ++ m.msg⟩]
  match m.msg_data with
  | none => (h, logs0)
  | some md =>
    let h1 :=
      if m.kind = "resp" ∧ m.code = some 200 ∧ m.msg = "entities" then
        match md.entities with
        | some es => es.foldl createOrUpdateActivity h
        | none => h
      else h
    if m.kind = "event" ∧ m.msg = "entity_change" ∧ m.cat = some "ENTITY" ∧
        md.entity_type = some "activity" ∧ md.event_type = some "CHANGE" then
      match md.new_state with
      | some ns =>
        let id := entityKey md.entity_id
        let nstate := ns.attributes_state
        let isActive := nstate == "ON"
        if nstate = "ON" ∨ nstate = "OFF" then
          (setSt h1 ("activities." ++ id ++ ".is_active") ⟨.jbool isActive, true⟩,
           logs0 ++ [⟨.info, "Aktivität-Status geändert: " ++ id⟩])
        else (h1, logs0)
      | none => (h1, logs0)
    else (h1, logs0)

/-- The `message` listener (main.js:81-88): `JSON.parse` is fallible, so
its result is an `Option Msg`; the `catch` branch logs a warning and
drops the frame. -/
def onWsMessage (h : Host) (parsed : Option Msg) : Host × List LogEntry :=
  match parsed with
  | none => (h, [⟨.warn, "Fehler beim Parsen von WS-Nachricht"⟩])
  | some m => handleMessage h m

/-! ## Outbound envelopes and the command dispatcher -/

inductive EnvData
  | channels (cs : List String)
  | entityTypes (ts : List String)
  | command (entity_id : String) (cmd_id : String)
  deriving DecidableEq, Repr

structure Envelope where
  kind : String
  id : Nat
  msg : String
  msg_data : EnvData
  deriving DecidableEq, Repr

/-- `subscribeActivities` envelope (main.js:108-115). -/
def subscribeEnv : Envelope :=
  ⟨"req", 0, "subscribe_events", .channels ["entity_activity"]⟩

/-- `requestAllActivities` envelope (main.js:123-130). -/
def getEntitiesEnv : Envelope :=
  ⟨"req", 0, "get_entities", .entityTypes ["activity"]⟩

/-- The observable effects of one `onStateChange` call: envelopes passed
to `ws.send`, log lines, and `setTimeout`-scheduled state writes as
(delay in ms, path, written state). -/
structure DispatchResult where
  sends : List Envelope
  logs : List LogEntry
  resets : List (Nat × String × IoState)
  deriving DecidableEq, Repr

/-- `onStateChange` of the WebSocket variant (main.js:205-237).
`connected` is `this.connected`; `sendOk` tells whether `ws.send`
returned normally (it only affects which log line the `try`/`catch`
emits).  The 500 ms button reset is scheduled whenever the command
branch is taken, whether or not the send threw. -/
def onStateChange (connected : Bool) (id : String) (state : Option IoState)
    (sendOk : Bool) : DispatchResult :=
  let dbg : LogEntry := ⟨.debug, "StateChange: " ++ id⟩
  match state with
  | none => ⟨[], [dbg], []⟩
  | some s =>
    if s.ack then ⟨[], [dbg], []⟩
    else
      let parts := jsSplitDot id
      let actId := jsIdx parts ((parts.length : Int) - 2)
      let command := jsIdx parts ((parts.length : Int) - 1)
      if command = "start" ∧ s.val = .jbool true ∧ connected = true then
        let env : Envelope :=
          ⟨"req", 0, "execute_entity_command",
           .command ("uc.main." ++ actId) "activity.start"⟩
        let sendLog : LogEntry :=
          if sendOk then ⟨.info, "Startbefehl für '" ++ actId ++ "' gesendet."⟩
          else ⟨.error, "Fehler beim Senden von Startbefehl"⟩
        ⟨[env],
         [dbg, ⟨.info, "Starte Aktivität über WebSocket: " ++ actId⟩, sendLog],
         [(500, id, ⟨.jbool false, true⟩)]⟩
      else ⟨[], [dbg], []⟩

/-! ## Connection lifecycle (`connectWebSocket`, `onUnload`)

The socket and reconnect timer bookkeeping of main.js, as a step
function over the events the runtime can deliver.  Timers get fresh
numeric ids; `pending` holds the ids of scheduled-but-unfired reconnect
timers, `timeoutField` is the `this.reconnectTimeout` field (which the
code never nulls, so it can hold an already-fired timer). -/

structure Conn where
  hasWs : Bool
  connected : Bool
  pending : List Nat
  timeoutField : Option Nat
  nextT : Nat
  /-- Ghost field recording that `onUnload` has run.  No handler reads
  it: the code keeps no such flag. -/
  unloaded : Bool
  deriving DecidableEq, Repr

inductive COut
  | setInfoConnection (val : Bool) (ack : Bool)
  | send (e : Envelope)
  | schedule (ms : Nat)
  | logOut (lv : LogLevel) (s : String)
  deriving DecidableEq, Repr

inductive CEv
  | opened
  | closed
  | timerFire
  | unload
  deriving DecidableEq, Repr

/-- `if (this.reconnectTimeout) clearTimeout(this.reconnectTimeout)`. -/
def clearReconnect (s : Conn) : Conn :=
  match s.timeoutField with
  | some t => { s with pending := s.pending.erase t }
  | none => s

/-- The body of `connectWebSocket` (main.js:63-69): closes any existing
socket (its `close` event is then delivered by the runtime later) and
creates a fresh one. -/
def connectWS (s : Conn) : Conn :=
  { s with hasWs := true }

/-- One runtime event against the adapter's connection state.

* `opened`: the `open` handler (main.js:71-79) — become connected,
  report it, subscribe and request all activities.
* `closed`: the `close` handler (main.js:90-99) — become disconnected,
  report it, cancel any pending reconnect timer, schedule a fresh
  reconnect in 5000 ms.
* `timerFire`: the scheduled reconnect fires and runs
  `connectWebSocket` again.
* `unload`: `onUnload` (main.js:239-247) — close the socket and clear
  the reconnect timer. -/
def step (s : Conn) : CEv → Conn × List COut
  | .opened =>
    ({ s with connected := true },
     [.setInfoConnection true true, .logOut .info "WebSocket verbunden mit Remote 3.",
      .send subscribeEnv, .send getEntitiesEnv])
  | .closed =>
    let s1 := clearReconnect { s with connected := false }
    let s2 := { s1 with pending := s1.nextT :: s1.pending,
                        timeoutField := some s1.nextT, nextT := s1.nextT + 1 }
    (s2, [.setInfoConnection false true,
          .logOut .warn "WebSocket getrennt. Reconnect in 5s ...",
          .schedule 5000])
  | .timerFire =>
    match s.timeoutField with
    | some t =>
      if t ∈ s.pending then (connectWS { s with pending := s.pending.erase t }, [])
      else (s, [])
    | none => (s, [])
  | .unload =>
    (clearReconnect { s with unloaded := true }, [])

/-- Invariant: at most one reconnect timer is pending, and a pending
timer is always the one stored in `this.reconnectTimeout`. -/
def ConnInv (s : Conn) : Bool :=
  match s.pending with
  | [] => true
  | [t] => s.timeoutField == some t
  | _ => false

/-- A connected adapter with a live socket and no pending timer. -/
def conn0 : Conn :=
  { hasWs := true, connected := true, pending := [], timeoutField := none,
    nextT := 0, unloaded := false }

/-! ## One-shot REST variant (`src/unnamed/part_000`) -/

/-- The `id.match(/^([^.]+)\.([^.]+)\.actions\.([^.]+)$/)` pattern of the
REST variant's `onStateChange`: exactly four `.`-separated segments, the
third literally `actions`, the others non-empty (a split segment never
contains a dot, so `[^.]+` is non-emptiness). -/
def matchActionId (id : String) : Option (String × String × String) :=
  match jsSplitDot id with
  | [t, o, s, a] =>
    if s = "actions" ∧ t ≠ "" ∧ o ≠ "" ∧ a ≠ "" then some (t, o, a) else none
  | _ => none

/-- The `<trigger>_error` object of the REST variant (part_000:255). -/
def errorDef : ObjDef :=
  { otype := "state", name := "last action error", vtype := some "string",
    role := some "text", read := some true, write := some false }

/-- `onStateChange` of the one-shot REST variant (part_000:210-258).
`post` is the outcome of the `axios.post` dispatch (`.ok status` or
`.error message`); `now` is the current ISO timestamp; `rb` is
`this.restBase`.  On success the trigger state is acknowledged and the
entity's `lastUpdate` node refreshed; on failure the trigger is left
alone and a `<trigger>_error` sibling node is created and set. -/
def restOnStateChange (rb : String) (h : Host) (id : String)
    (state : Option IoState) (post : Except String Nat) (now : String) :
    Host × List LogEntry :=
  match state with
  | none => (h, [])
  | some s =>
    if s.ack then (h, [])
    else
      let dbg : LogEntry := ⟨.debug, "stateChange " ++ id⟩
      match matchActionId id with
      | none => (h, [dbg])
      | some (t, o, aSafe) =>
        let origId := jsOrS ((h.objects (t ++ "." ++ o)).bind ObjDef.nativeOrigId) o
        let actionName :=
          String.mk (aSafe.data.map fun c => if c = '_' then ' ' else c)
        let url := rb ++ "/api/v1/entities/" ++ origId ++ "/actions/" ++ actionName
        let infoLog : LogEntry :=
          ⟨.info, "Calling action " ++ actionName ++ " for entity " ++ origId ++
            " -> " ++ url⟩
        match post with
        | .ok _code =>
          let h1 := setSt h id ⟨s.val, true⟩
          let h2 := setSt h1 (t ++ "." ++ o ++ ".lastUpdate") ⟨.jstr now, true⟩
          (h2, [dbg, infoLog, ⟨.debug, "Action result status"⟩])
        | .error e =>
          let h1 := setObjectNotExists h (id ++ "_error") errorDef
          let h2 := setSt h1 (id ++ "_error") ⟨.jstr e, true⟩
          (h2, [dbg, infoLog, ⟨.error, "Action call failed: " ++ e⟩])

/-! ## Concrete inputs used by witnesses and counterexamples -/

/-- An incremental `entity_change` event envelope as `handleMessage`
receives it, with new state value `v`. -/
def eventMsg (eid v : String) : Msg :=
  { kind := "event", msg := "entity_change", cat := some "ENTITY",
    msg_data := some
      { entity_type := some "activity", event_type := some "CHANGE",
        entity_id := eid, new_state := some ⟨v⟩ } }

/-- A typical hub entity: three-segment id. -/
def actKitchen : Entity := { entity_id := "uc.main.kitchen", attributes_state := "ON" }

/-- An entity whose id has four segments, so its final segment differs
from the segment at index 2. -/
def actDeep : Entity := { entity_id := "a.b.c.d", attributes_state := "ON" }

/-! ## Helper lemmas -/

theorem splitDotsAux_ne_nil (l : List Char) : splitDotsAux l ≠ [] := by
  cases l with
  | nil => simp [splitDotsAux]
  | cons c cs =>
    simp only [splitDotsAux]
    by_cases hc : c = '.'
    · simp [hc]
    · simp only [hc, if_false]
      rcases splitDotsAux cs with _ | ⟨w, ws⟩ <;> simp

theorem splitDotsAux_length (l : List Char) :
    (splitDotsAux l).length = l.count '.' + 1 := by
  induction l with
  | nil => rfl
  | cons c cs ih =>
    by_cases hc : c = '.'
    · subst hc
      simp [splitDotsAux, ih, List.count_cons]
    · rcases hr : splitDotsAux cs with _ | ⟨w, ws⟩
      · exact absurd hr (splitDotsAux_ne_nil cs)
      · rw [hr] at ih
        simp only [splitDotsAux, hc, if_false, hr]
        simp only [List.length_cons] at ih ⊢
        simp [List.count_cons, hc, ← ih]

theorem splitDotsAux_no_dot (l : List Char) :
    ∀ w ∈ splitDotsAux l, '.' ∉ w := by
  induction l with
  | nil =>
    intro w hw
    simp [splitDotsAux] at hw
    simp [hw]
  | cons c cs ih =>
    intro w hw
    by_cases hc : c = '.'
    · subst hc
      simp only [splitDotsAux, if_pos rfl] at hw
      rcases List.mem_cons.mp hw with rfl | hw
      · simp
      · exact ih w hw
    · rcases hr : splitDotsAux cs with _ | ⟨v, vs⟩
      · exact absurd hr (splitDotsAux_ne_nil cs)
      · simp only [splitDotsAux, hc, if_false, hr] at hw
        rcases List.mem_cons.mp hw with rfl | hw
        · intro hmem
          rcases List.mem_cons.mp hmem with h1 | h1
          · exact hc h1.symm
          · exact ih v (by rw [hr]; exact List.mem_cons_self v vs) h1
        · exact ih w (by rw [hr]; exact List.mem_cons_of_mem v hw)

theorem string_data_append (s t : String) : (s ++ t).data = s.data ++ t.data := by
  cases s; cases t; rfl

theorem ne_append_of_len_pos (s t : String) (h : t.length ≠ 0) : s ≠ s ++ t := by
  intro he
  have h2 := congrArg String.length he
  rw [String.length_append] at h2
  omega

theorem append_ne_append_of_len_ne (s t u : String) (h : t.length ≠ u.length) :
    s ++ t ≠ s ++ u := by
  intro he
  have h2 := congrArg String.length he
  rw [String.length_append, String.length_append] at h2
  omega

theorem getD_two_of_length_three (l : List String) (h : l.length = 3) :
    l.getD 2 "undefined" = l.getLastD "" := by
  obtain ⟨a, b, c, rfl⟩ := List.length_eq_three.mp h
  rfl

theorem getD_append_mid (l : List String) (a b c d : String) :
    (l ++ [a, b, c]).getD (l.length + 1) d = b := by
  induction l with
  | nil => rfl
  | cons x xs ih => simpa using ih

theorem getD_append_last (l : List String) (a b c d : String) :
    (l ++ [a, b, c]).getD (l.length + 2) d = c := by
  induction l with
  | nil => rfl
  | cons x xs ih => simpa using ih

theorem jsIdx_append_mid (l : List String) (a b c : String) :
    jsIdx (l ++ [a, b, c]) (((l ++ [a, b, c]).length : Int) - 2) = b := by
  have hlen : (l ++ [a, b, c]).length = l.length + 3 := by simp
  rw [hlen]
  unfold jsIdx
  rw [if_pos (by omega)]
  have ht : ((l.length + 3 : Nat) : Int) - 2 = ((l.length + 1 : Nat) : Int) := by omega
  rw [ht, Int.toNat_ofNat]
  exact getD_append_mid l a b c "undefined"

theorem jsIdx_append_last (l : List String) (a b c : String) :
    jsIdx (l ++ [a, b, c]) (((l ++ [a, b, c]).length : Int) - 1) = c := by
  have hlen : (l ++ [a, b, c]).length = l.length + 3 := by simp
  rw [hlen]
  unfold jsIdx
  rw [if_pos (by omega)]
  have ht : ((l.length + 3 : Nat) : Int) - 1 = ((l.length + 2 : Nat) : Int) := by omega
  rw [ht, Int.toNat_ofNat]
  exact getD_append_last l a b c "undefined"

theorem connInv_step (s : Conn) (e : CEv) (hInv : ConnInv s = true) :
    ConnInv (step s e).1 = true := by
  rcases s with ⟨hw, cn, pend, fld, nx, ul⟩
  rcases pend with _ | ⟨t, _ | ⟨u, rest⟩⟩
  · cases e with
    | opened => simp [step, ConnInv]
    | closed => cases fld <;> simp [step, clearReconnect, ConnInv]
    | timerFire => cases fld <;> simp [step, clearReconnect, ConnInv, connectWS]
    | unload => cases fld <;> simp [step, clearReconnect, ConnInv]
  · have hfld : fld = some t := by
      simp only [ConnInv] at hInv
      cases fld with
      | none => simp at hInv
      | some v =>
        have : v = t := by simpa using hInv
        rw [this]
    subst hfld
    cases e with
    | opened => simp [step, ConnInv]
    | closed => simp [step, clearReconnect, ConnInv]
    | timerFire => simp [step, clearReconnect, ConnInv, connectWS]
    | unload => simp [step, clearReconnect, ConnInv]
  · simp [ConnInv] at hInv

/-- C1 counterexample: the code derives the local key as
`entity_id.split(".")[2]`, which on the four-segment id `"a.b.c.d"` is
`"c"`, not the final segment `"d"` that the claim promises for every
entity id. -/
theorem entityKey_ne_lastSegment_cex :
    entityKey "a.b.c.d" = "c" ∧ specLocalKey "a.b.c.d" = "d" ∧
      entityKey "a.b.c.d" ≠ specLocalKey "a.b.c.d" := by
  decide

/-- C1 (amended): the local key used by `createOrUpdateActivity` and by
the `entity_change` branch of `handleMessage` is the segment of
`entity_id` at index 2 after splitting on `.`; it equals the final
segment exactly for entity ids with three segments (such as
`uc.main.<key>`). -/
theorem entityKey_eq_lastSegment_of_threeSegments (eid : String)
    (h3 : (jsSplitDot eid).length = 3) :
    entityKey eid = specLocalKey eid := by
  unfold entityKey specLocalKey
  exact getD_two_of_length_three _ h3

theorem entityKey_eq_lastSegment_of_threeSegments_w :
    (jsSplitDot "uc.main.kitchen").length = 3 ∧
      entityKey "uc.main.kitchen" = specLocalKey "uc.main.kitchen" :=
  ⟨by decide, entityKey_eq_lastSegment_of_threeSegments "uc.main.kitchen" (by decide)⟩

/-- C2: the code violates the claim.  After `onUnload` (which closes the
socket and clears the reconnect timer) the socket's own `close` event is
still delivered, and the close handler — which has no teardown flag to
consult — schedules a fresh 5-second reconnect timer; firing it and the
subsequent `open` put the adapter back into the connected state even
though the instance was unloaded. -/
theorem unloadThenCloseSchedulesReconnect :
    ((step conn0 .unload).1.unloaded = true ∧ (step conn0 .unload).1.pending = [])
    ∧ (step (step conn0 .unload).1 .closed).1.pending.length = 1
    ∧ COut.schedule 5000 ∈ (step (step conn0 .unload).1 .closed).2
    ∧ (step (step (step (step conn0 .unload).1 .closed).1 .timerFire).1
        .opened).1.connected = true
    ∧ (step (step (step (step conn0 .unload).1 .closed).1 .timerFire).1
        .opened).1.unloaded = true := by
  decide

/-- C3 counterexample: writing `true` (unacknowledged) to a `start` node
while disconnected logs no error at all — the only log line is the
unconditional debug trace — so the claim's "an error is logged" fails on
the code.  (The other two parts of the claim hold: nothing is sent and
no reset is scheduled.) -/
theorem startWhileDisconnected_noErrorLog_cex :
    (∀ e ∈ (onStateChange false "unfolded.0.activities.kitchen.start"
        (some ⟨.jbool true, false⟩) true).logs, e.level ≠ .error)
    ∧ (onStateChange false "unfolded.0.activities.kitchen.start"
        (some ⟨.jbool true, false⟩) true).sends = [] := by
  decide

/-- C3 (amended): for every unacknowledged write of `true` to a `start`
trigger node while disconnected, no outbound message is sent and no
reset of the trigger is scheduled; nothing is logged beyond the
unconditional debug trace (in particular, no error is logged). -/
theorem startWhileDisconnected_dropsSilently (id : String) (s : IoState)
    (sendOk : Bool) (hack : s.ack = false) (_hval : s.val = .jbool true) :
    (onStateChange false id (some s) sendOk).sends = []
    ∧ (onStateChange false id (some s) sendOk).resets = []
    ∧ ∀ e ∈ (onStateChange false id (some s) sendOk).logs, e.level = .debug := by
  unfold onStateChange
  simp [hack]

theorem startWhileDisconnected_dropsSilently_w :
    (⟨.jbool true, false⟩ : IoState).ack = false
    ∧ (⟨.jbool true, false⟩ : IoState).val = .jbool true
    ∧ ((onStateChange false "unfolded.0.activities.tv.start"
          (some ⟨.jbool true, false⟩) true).sends = []
       ∧ (onStateChange false "unfolded.0.activities.tv.start"
          (some ⟨.jbool true, false⟩) true).resets = []
       ∧ ∀ e ∈ (onStateChange false "unfolded.0.activities.tv.start"
          (some ⟨.jbool true, false⟩) true).logs, e.level = .debug) :=
  ⟨rfl, rfl,
   startWhileDisconnected_dropsSilently "unfolded.0.activities.tv.start"
     ⟨.jbool true, false⟩ true rfl rfl⟩

/-- C8: a frame whose payload is not valid JSON (the `JSON.parse`
failure case of the `message` listener) leaves the host store untouched
and produces exactly one warning log; the handler returns normally, so
no exception propagates past it. -/
theorem malformedFrameDropped (h : Host) :
    (onWsMessage h none).1 = h
    ∧ (onWsMessage h none).2 = [⟨.warn, "Fehler beim Parsen von WS-Nachricht"⟩] :=
  ⟨rfl, rfl⟩

theorem malformedFrameDropped_w :
    (onWsMessage host0 none).1 = host0
    ∧ (onWsMessage host0 none).2 = [⟨.warn, "Fehler beim Parsen von WS-Nachricht"⟩] :=
  malformedFrameDropped host0

/-- C5: on every transport close event the close handler cancels any
previously scheduled reconnect timer and schedules exactly one new
attempt with a fixed 5000 ms delay, sets the connection state to
disconnected and emits the disconnected-notification
(`info.connection = false`); and every event preserves the invariant
that at most one reconnect timer is pending. -/
theorem closeReplacesTimerAndSchedulesOnce (s : Conn) (hInv : ConnInv s = true) :
    ((step s .closed).1.pending.length = 1
     ∧ (step s .closed).1.connected = false
     ∧ COut.setInfoConnection false true ∈ (step s .closed).2
     ∧ COut.schedule 5000 ∈ (step s .closed).2)
    ∧ (∀ e, ConnInv (step s e).1 = true)
    ∧ (step s .closed).1.pending.length ≤ 1 := by
  refine ⟨⟨?_, ?_, ?_, ?_⟩, fun e => connInv_step s e hInv, ?_⟩
  · rcases s with ⟨hw, cn, pend, fld, nx, ul⟩
    rcases pend with _ | ⟨t, _ | ⟨u, rest⟩⟩
    · cases fld <;> simp [step, clearReconnect]
    · have hfld : fld = some t := by
        simp only [ConnInv] at hInv
        cases fld with
        | none => simp at hInv
        | some v =>
          have : v = t := by simpa using hInv
          rw [this]
      subst hfld
      simp [step, clearReconnect]
    · simp [ConnInv] at hInv
  · rcases s with ⟨hw, cn, pend, fld, nx, ul⟩
    cases fld <;> simp [step, clearReconnect]
  · rcases s with ⟨hw, cn, pend, fld, nx, ul⟩
    cases fld <;> simp [step, clearReconnect]
  · rcases s with ⟨hw, cn, pend, fld, nx, ul⟩
    cases fld <;> simp [step, clearReconnect]
  · have := connInv_step s .closed hInv
    rcases hp : (step s .closed).1.pending with _ | ⟨t, _ | ⟨u, rest⟩⟩
    · simp
    · simp
    · rw [ConnInv, hp] at this
      simp at this

theorem closeReplacesTimerAndSchedulesOnce_w :
    ConnInv conn0 = true
    ∧ (step conn0 .closed).1.pending.length = 1
    ∧ (step conn0 .closed).1.connected = false
    ∧ COut.setInfoConnection false true ∈ (step conn0 .closed).2
    ∧ COut.schedule 5000 ∈ (step conn0 .closed).2 :=
  ⟨by decide,
   (closeReplacesTimerAndSchedulesOnce conn0 (by decide)).1.1,
   (closeReplacesTimerAndSchedulesOnce conn0 (by decide)).1.2.1,
   (closeReplacesTimerAndSchedulesOnce conn0 (by decide)).1.2.2.1,
   (closeReplacesTimerAndSchedulesOnce conn0 (by decide)).1.2.2.2⟩

/-- C10: `onStateChange` of the WebSocket variant sends nothing,
schedules no reset and performs no host write when the notified state is
null, acknowledged, or has any value other than the boolean `true` —
in particular the adapter's own 500 ms reset (an acknowledged write of
`false`) can never re-trigger a command.  The only effect in all these
cases is the unconditional debug trace. -/
theorem nonUserWritesAreIgnored (connected sendOk : Bool) (id : String)
    (st : Option IoState) :
    (st = none →
      onStateChange connected id st sendOk = ⟨[], [⟨.debug, "StateChange: " ++ id⟩], []⟩)
    ∧ (∀ s, st = some s → (s.ack = true ∨ s.val ≠ .jbool true) →
      onStateChange connected id st sendOk = ⟨[], [⟨.debug, "StateChange: " ++ id⟩], []⟩) := by
  constructor
  · rintro rfl
    rfl
  · rintro s rfl hcase
    rcases hcase with hack | hval
    · simp [onStateChange, hack]
    · by_cases hack : s.ack
      · simp [onStateChange, hack]
      · simp [onStateChange, hack, hval]

theorem nonUserWritesAreIgnored_w :
    (some ⟨.jbool false, true⟩ : Option IoState) = some ⟨.jbool false, true⟩
    ∧ (⟨.jbool false, true⟩ : IoState).ack = true
    ∧ onStateChange true "unfolded.0.activities.kitchen.start"
        (some ⟨.jbool false, true⟩) true =
        ⟨[], [⟨.debug, "StateChange: " ++ "unfolded.0.activities.kitchen.start"⟩], []⟩ :=
  ⟨rfl, rfl,
   (nonUserWritesAreIgnored true true "unfolded.0.activities.kitchen.start"
     (some ⟨.jbool false, true⟩)).2 ⟨.jbool false, true⟩ rfl (Or.inl rfl)⟩

/-- C4: an unacknowledged user write of `true` to
`...activities.<key>.start` while connected sends exactly one
execute-command envelope — kind `req`, msg `execute_entity_command`,
`entity_id = "uc.main." ++ key`, `cmd_id = "activity.start"` — and
schedules exactly one reset of the trigger node to `false`
(acknowledged) with a fixed 500 ms delay, whether or not the send
throws. -/
theorem connectedStartSendsOneCommand (id key : String) (l : List String)
    (sendOk : Bool)
    (hsplit : jsSplitDot id = l ++ ["activities", key, "start"]) :
    (onStateChange true id (some ⟨.jbool true, false⟩) sendOk).sends =
      [⟨"req", 0, "execute_entity_command",
        .command ("uc.main." ++ key) "activity.start"⟩]
    ∧ (onStateChange true id (some ⟨.jbool true, false⟩) sendOk).resets =
      [(500, id, ⟨.jbool false, true⟩)] := by
  have hmid := jsIdx_append_mid l "activities" key "start"
  have hlast := jsIdx_append_last l "activities" key "start"
  rw [← hsplit] at hmid hlast
  unfold onStateChange
  simp [hmid, hlast]

theorem connectedStartSendsOneCommand_w :
    jsSplitDot "unfolded.0.activities.kitchen.start" =
      ["unfolded", "0"] ++ ["activities", "kitchen", "start"]
    ∧ ((onStateChange true "unfolded.0.activities.kitchen.start"
          (some ⟨.jbool true, false⟩) true).sends =
        [⟨"req", 0, "execute_entity_command",
          .command ("uc.main." ++ "kitchen") "activity.start"⟩]
       ∧ (onStateChange true "unfolded.0.activities.kitchen.start"
          (some ⟨.jbool true, false⟩) true).resets =
        [(500, "unfolded.0.activities.kitchen.start", ⟨.jbool false, true⟩)]) :=
  ⟨by decide,
   connectedStartSendsOneCommand "unfolded.0.activities.kitchen.start" "kitchen"
     ["unfolded", "0"] true (by decide)⟩

/-- C7: for an incoming `entity_change` event, `handleMessage` writes
`is_active = true` when the new state value is `"ON"` and
`is_active = false` when it is `"OFF"`; for any other value the host
store is left completely unchanged and nothing is logged at error
level. -/
theorem entityChangeSentinelFilter (h : Host) (eid v : String) :
    (v = "ON" →
      (handleMessage h (eventMsg eid v)).1.states
        ("activities." ++ entityKey eid ++ ".is_active") = some ⟨.jbool true, true⟩)
    ∧ (v = "OFF" →
      (handleMessage h (eventMsg eid v)).1.states
        ("activities." ++ entityKey eid ++ ".is_active") = some ⟨.jbool false, true⟩)
    ∧ (v ≠ "ON" → v ≠ "OFF" →
      (handleMessage h (eventMsg eid v)).1 = h
      ∧ ∀ e ∈ (handleMessage h (eventMsg eid v)).2, e.level ≠ .error) := by
  refine ⟨?_, ?_, ?_⟩
  · rintro rfl
    simp [handleMessage, eventMsg, setSt, upd]
  · rintro rfl
    simp [handleMessage, eventMsg, setSt, upd]
  · intro hOn hOff
    constructor
    · simp [handleMessage, eventMsg, hOn, hOff]
    · simp [handleMessage, eventMsg, hOn, hOff]

theorem entityChangeSentinelFilter_w :
    ("DELAYED" : String) ≠ "ON"
    ∧ ("DELAYED" : String) ≠ "OFF"
    ∧ (handleMessage host0 (eventMsg "uc.main.kitchen" "DELAYED")).1 = host0
    ∧ ∀ e ∈ (handleMessage host0 (eventMsg "uc.main.kitchen" "DELAYED")).2,
        e.level ≠ .error :=
  ⟨by decide, by decide,
   ((entityChangeSentinelFilter host0 "uc.main.kitchen" "DELAYED").2.2
      (by decide) (by decide)).1,
   ((entityChangeSentinelFilter host0 "uc.main.kitchen" "DELAYED").2.2
      (by decide) (by decide)).2⟩

/-- C6 counterexample: on the four-segment entity id `"a.b.c.d"` (whose
final segment, hence the claim's local key K, is `"d"`) the reconciler
creates no channel node at `activities.d` at all — it uses the index-2
segment `"c"` instead — so the claim as stated fails. -/
theorem reconcileMissesFinalSegmentKey_cex :
    specLocalKey actDeep.entity_id = "d"
    ∧ (createOrUpdateActivity host0 actDeep).objects ("activities." ++ "d") = none
    ∧ (createOrUpdateActivity host0 actDeep).objects ("activities." ++ "c") ≠ none := by
  decide

/-- C6 (amended): for every entity whose `entity_id` has exactly three
`.`-separated segments, with K the final segment, reconciling produces
exactly one channel node `activities.K` carrying the display name,
exactly one read-only boolean state node `activities.K.is_active` whose
value is true iff `attributes.state ≠ "OFF"`, and exactly one write-only
trigger node `activities.K.start` (whose state pattern is also
subscribed); re-invoking with the same entity changes nothing at all
(the refreshed name and state value are rewritten identically). -/
theorem reconcileCreatesActivityNodes (h : Host) (act : Entity) (K : String)
    (hseg : (jsSplitDot act.entity_id).length = 3)
    (hK : specLocalKey act.entity_id = K) :
    ((createOrUpdateActivity h act).objects ("activities." ++ K) =
        some (channelDef (jsOrS act.name.de_DE (jsOrS act.name.en_US K)))
     ∧ (createOrUpdateActivity h act).objects ("activities." ++ K ++ ".is_active") =
        some isActiveDef
     ∧ (createOrUpdateActivity h act).states ("activities." ++ K ++ ".is_active") =
        some ⟨.jbool (act.attributes_state != "OFF"), true⟩
     ∧ ((act.attributes_state != "OFF") = true ↔ act.attributes_state ≠ "OFF")
     ∧ (createOrUpdateActivity h act).objects ("activities." ++ K ++ ".start") =
        some startDef
     ∧ (createOrUpdateActivity h act).subs ("activities." ++ K ++ ".start") = true)
    ∧ createOrUpdateActivity (createOrUpdateActivity h act) act =
        createOrUpdateActivity h act := by
  have hkey : entityKey act.entity_id = K := by
    rw [← hK]
    unfold entityKey specLocalKey
    exact getD_two_of_length_three _ hseg
  have hne1 : ("activities." ++ K) ≠ ("activities." ++ K ++ ".start") :=
    ne_append_of_len_pos _ _ (by decide)
  have hne2 : ("activities." ++ K) ≠ ("activities." ++ K ++ ".is_active") :=
    ne_append_of_len_pos _ _ (by decide)
  have hne3 : ("activities." ++ K ++ ".is_active") ≠ ("activities." ++ K ++ ".start") :=
    append_ne_append_of_len_ne _ _ _ (by decide)
  have hne4 : ("activities." ++ K ++ ".start") ≠ ("activities." ++ K ++ ".is_active") :=
    fun he => hne3 he.symm
  constructor
  · refine ⟨?_, ?_, ?_, bne_iff_ne, ?_, ?_⟩ <;>
      simp [createOrUpdateActivity, hkey, extendObject, setSt, subSt, upd,
        hne1, hne2, hne3, hne4]
  · refine Host.ext ?_ ?_ ?_ <;>
      funext x <;>
      simp only [createOrUpdateActivity, hkey, extendObject, setSt, subSt, upd] <;>
      split_ifs <;>
      rfl

theorem reconcileCreatesActivityNodes_w :
    (jsSplitDot actKitchen.entity_id).length = 3
    ∧ specLocalKey actKitchen.entity_id = "kitchen"
    ∧ (createOrUpdateActivity host0 actKitchen).objects ("activities." ++ "kitchen") =
        some (channelDef (jsOrS actKitchen.name.de_DE
          (jsOrS actKitchen.name.en_US "kitchen"))) :=
  ⟨by decide, by decide,
   (reconcileCreatesActivityNodes host0 actKitchen "kitchen"
      (by decide) (by decide)).1.1⟩

/-! ## Facts about `matchActionId` needed for the REST variant claim -/

theorem matchActionId_inv (id t o a : String)
    (hm : matchActionId id = some (t, o, a)) :
    jsSplitDot id = [t, o, "actions", a] := by
  unfold matchActionId at hm
  rcases hl : jsSplitDot id with _ | ⟨x1, _ | ⟨x2, _ | ⟨x3, _ | ⟨x4, _ | ⟨x5, r⟩⟩⟩⟩⟩ <;>
    rw [hl] at hm <;>
    simp only [] at hm
  all_goals try exact Option.noConfusion hm
  split_ifs at hm with hcond
  obtain ⟨rfl, rfl, rfl⟩ : x1 = t ∧ x2 = o ∧ x4 = a := by
    simpa using hm
  rw [hcond.1]

theorem splitDotsAux_elems (s t o a : String)
    (hm : jsSplitDot s = [t, o, "actions", a]) :
    splitDotsAux s.data = [t.data, o.data, "actions".data, a.data] := by
  have h2 := congrArg (List.map String.data) hm
  rw [jsSplitDot, List.map_map] at h2
  have hco : (String.data ∘ String.mk) = (fun l : List Char => l) := rfl
  rw [hco] at h2
  simpa using h2

/-- The action-trigger path never coincides with the entity's
`lastUpdate` path: the former splits into four dot-free segments (so it
contains exactly three dots) while the latter contains exactly two. -/
theorem trigger_ne_lastUpdate (id t o a : String)
    (hm : matchActionId id = some (t, o, a)) :
    id ≠ t ++ "." ++ o ++ ".lastUpdate" := by
  have hsplit := matchActionId_inv id t o a hm
  have hL := splitDotsAux_elems id t o a hsplit
  have hcount_id : id.data.count '.' = 3 := by
    have hlen := splitDotsAux_length id.data
    rw [hL] at hlen
    simp at hlen
    omega
  have hto : t.data.count '.' = 0 :=
    List.count_eq_zero.mpr (splitDotsAux_no_dot id.data t.data (by rw [hL]; simp))
  have hoo : o.data.count '.' = 0 :=
    List.count_eq_zero.mpr (splitDotsAux_no_dot id.data o.data (by rw [hL]; simp))
  intro he
  have hc := congrArg (fun s => s.data.count '.') he
  simp only [string_data_append, List.count_append, hcount_id] at hc
  rw [hto, hoo] at hc
  have h1 : (".").data.count '.' = 1 := by decide
  have h2 : (".lastUpdate").data.count '.' = 1 := by decide
  rw [h1, h2] at hc
  omega

theorem setObjectNotExists_isSome (h : Host) (p : String) (d : ObjDef) :
    ((setObjectNotExists h p d).objects p).isSome = true := by
  unfold setObjectNotExists
  cases hp : h.objects p with
  | some v => simp [hp]
  | none => simp [upd]

/-- C9: in the one-shot REST variant, for every unacknowledged write to
an action state `<type>.<id>.actions.<action>`: if the POST dispatch
fails, the trigger state is left exactly as it was (not acknowledged)
and a sibling `<trigger>_error` node exists and is set to the failure
message; if the dispatch succeeds, the trigger state is acknowledged
with its written value and the entity's `lastUpdate` node is refreshed
with the current timestamp. -/
theorem restActionAckAndError (rb : String) (h : Host) (id t o a : String)
    (s : IoState) (post : Except String Nat) (now : String)
    (hm : matchActionId id = some (t, o, a)) (hack : s.ack = false) :
    (∀ e, post = .error e →
      ((restOnStateChange rb h id (some s) post now).1.states id = h.states id
       ∧ ((restOnStateChange rb h id (some s) post now).1.objects
            (id ++ "_error")).isSome = true
       ∧ (restOnStateChange rb h id (some s) post now).1.states (id ++ "_error") =
           some ⟨.jstr e, true⟩))
    ∧ (∀ code, post = .ok code →
      ((restOnStateChange rb h id (some s) post now).1.states id = some ⟨s.val, true⟩
       ∧ (restOnStateChange rb h id (some s) post now).1.states
           (t ++ "." ++ o ++ ".lastUpdate") = some ⟨.jstr now, true⟩)) := by
  have hne_err : id ≠ id ++ "_error" := ne_append_of_len_pos _ _ (by decide)
  have hne_lu : id ≠ t ++ "." ++ o ++ ".lastUpdate" := trigger_ne_lastUpdate id t o a hm
  constructor
  · rintro e rfl
    refine ⟨?_, ?_, ?_⟩
    · simp only [restOnStateChange, hack, hm]
      simp only [Bool.false_eq_true, if_false, setSt, upd]
      rw [if_neg hne_err]
      unfold setObjectNotExists
      cases hp : h.objects (id ++ "_error") <;> simp [hp]
    · simp only [restOnStateChange, hack, hm]
      simp only [Bool.false_eq_true, if_false, setSt]
      exact setObjectNotExists_isSome h (id ++ "_error") errorDef
    · simp only [restOnStateChange, hack, hm]
      simp [setSt, upd]
  · rintro code rfl
    constructor
    · simp only [restOnStateChange, hack, hm]
      simp only [Bool.false_eq_true, if_false, setSt, upd]
      rw [if_neg hne_lu]
      simp
    · simp only [restOnStateChange, hack, hm]
      simp [setSt, upd]

theorem restActionAckAndError_w :
    matchActionId "activities.kitchen.actions.start" =
      some ("activities", "kitchen", "start")
    ∧ (⟨.jbool true, false⟩ : IoState).ack = false
    ∧ (restOnStateChange "http://remote" host0 "activities.kitchen.actions.start"
        (some ⟨.jbool true, false⟩) (Except.error "timeout") "2026-01-01").1.states
        ("activities.kitchen.actions.start" ++ "_error") = some ⟨.jstr "timeout", true⟩ :=
  ⟨by decide, rfl,
   ((restActionAckAndError "http://remote" host0 "activities.kitchen.actions.start"
       "activities" "kitchen" "start" ⟨.jbool true, false⟩ (Except.error "timeout")
       "2026-01-01" (by decide) rfl).1 "timeout" rfl).2.2⟩
